import Mathlib

/-!
Verification development for the policy evaluation engine of the
`backend/apps/policy_engine` Django application (files `utils.py` and
`models.py`).  The Python source is shallowly embedded: model classes become
structures, query-set filters become list filters over an in-memory store,
JSON values become an inductive `Value` type, and Python exceptions become an
explicit `Except PyExc` result.  All definitions are executable; functions
that need non-structural recursion (the regex backtracking matcher and the
recursive JSON comparisons) take an explicit fuel argument whose initial
value provably exceeds the recursion depth, so that the kernel can evaluate
every definition on concrete inputs.
-/

namespace PolicyEngine

/-- Python exceptions relevant to `PolicyEvaluator`.  `_evaluate_operator`
catches `ValueError` and `TypeError` only; `re.error` (raised by `re.match`
on an invalid pattern, derived from `Exception`, not from `ValueError`) and
`OverflowError` (raised by `float()` on an integer beyond double range,
derived from `ArithmeticError`) are *not* caught and propagate to the
caller. -/
inductive PyExc where
  | valueError
  | typeError
  | regexError
  | overflowError
deriving DecidableEq, Repr

/-- The four policy effects of `PolicyEffect` in `models.py`. -/
inductive PolicyEffect where
  | allow
  | deny
  | audit
  | escalate
deriving DecidableEq, Repr

/-- String rendering of an effect, as Django renders a `TextChoices` value
inside an f-string (the stored column value, e.g. `"DENY"`). -/
def PolicyEffect.render : PolicyEffect → String
  | .allow => "ALLOW"
  | .deny => "DENY"
  | .audit => "AUDIT"
  | .escalate => "ESCALATE"

/- ## List-of-characters string helpers

The matcher in `utils.py` works on Python `str` values; we model the
character-level operations (`startswith`, `endswith`, slicing, substring
membership) directly on `List Char`. -/

/-- `startsWithL pre s` models Python `s.startswith(pre)`. -/
def startsWithL : List Char → List Char → Bool
  | [], _ => true
  | _ :: _, [] => false
  | p :: ps, c :: cs => p = c && startsWithL ps cs

/-- `endsWithL suf s` models Python `s.endswith(suf)`. -/
def endsWithL (suf s : List Char) : Bool :=
  startsWithL suf.reverse s.reverse

/-- `dropLast2 s` models the Python slice `s[:-2]`. -/
def dropLast2 (s : List Char) : List Char :=
  s.take (s.length - 2)

/-- `isSubstrL n h` models Python `n in h` for strings: `n` occurs as a
contiguous substring of `h`. -/
def isSubstrL (n : List Char) : List Char → Bool
  | [] => startsWithL n []
  | c :: t => startsWithL n (c :: t) || isSubstrL n t

/- ## A small regular-expression engine

`utils.py` reaches Python's `re` module in two places: the glob branch of
`_resource_matches` (after replacing `*` with `.*` and `?` with `.`) and the
`regex` operator of `_evaluate_operator`.  We model the fragment of `re`
syntax those call sites can meet in this repository: literal characters, the
`.` wildcard, bracket character classes (sets of literal characters), and
the postfix quantifiers `*`, `+` and `?`.  Other metacharacters are treated
as literals; no claim depends on them.  As in Python, an unterminated `[`
class and a quantifier with nothing to repeat are compile errors. -/

/-- A single regex atom. -/
inductive RAtom where
  | lit (c : Char)
  | dot
  | cls (cs : List Char)
deriving DecidableEq, Repr

/-- A regex token: an atom, possibly under a postfix quantifier. -/
inductive RTok where
  | once (a : RAtom)
  | star (a : RAtom)
  | plus (a : RAtom)
  | opt (a : RAtom)
deriving DecidableEq, Repr

/-- Lexer output: atoms and bare quantifier symbols, before quantifiers are
attached to the preceding atom. -/
inductive LexTok where
  | atom (a : RAtom)
  | starSym
  | plusSym
  | optSym
deriving DecidableEq, Repr

/-- Lex a pattern into atoms and quantifier symbols.  The first argument is
the in-class flag, the second the accumulated class characters.  An input
ending inside a `[` class is a compile error (`none`), as in Python. -/
def lexAtoms : Bool → List Char → List Char → Option (List LexTok)
  | false, _, [] => some []
  | false, _, c :: rest =>
      if c = '[' then lexAtoms true [] rest
      else
        (lexAtoms false [] rest).map (fun ts =>
          (if c = '.' then LexTok.atom RAtom.dot
           else if c = '*' then LexTok.starSym
           else if c = '+' then LexTok.plusSym
           else if c = '?' then LexTok.optSym
           else LexTok.atom (RAtom.lit c)) :: ts)
  | true, _, [] => none
  | true, acc, c :: rest =>
      if c = ']' then (lexAtoms false [] rest).map (.atom (.cls acc.reverse) :: ·)
      else lexAtoms true (c :: acc) rest

/-- Attach quantifier symbols to their preceding atom.  A quantifier with no
preceding atom (e.g. the whole pattern `"["` lexes to an error before this
stage, but `"*"` reaches it) is a compile error, as Python raises
`re.error: nothing to repeat`; so is a doubled quantifier. -/
def quantify : List LexTok → Option (List RTok)
  | [] => some []
  | .atom a :: .starSym :: rest => (quantify rest).map (.star a :: ·)
  | .atom a :: .plusSym :: rest => (quantify rest).map (.plus a :: ·)
  | .atom a :: .optSym :: rest => (quantify rest).map (.opt a :: ·)
  | .atom a :: rest => (quantify rest).map (.once a :: ·)
  | .starSym :: _ => none
  | .plusSym :: _ => none
  | .optSym :: _ => none

/-- Compile a raw pattern string to regex tokens; `none` models `re.error`. -/
def parseRegex (s : List Char) : Option (List RTok) :=
  match lexAtoms false [] s with
  | none => none
  | some ts => quantify ts

/-- Does an atom match one character? -/
def atomMatch : RAtom → Char → Bool
  | .lit c, d => c = d
  | .dot, _ => true
  | .cls cs, d => cs.contains d

/-- Backtracking matcher.  `anchorEnd = true` requires the whole input to be
consumed (full match, used for the `^...$`-wrapped glob patterns);
`anchorEnd = false` accepts any prefix (the semantics of `re.match`).  The
fuel argument makes the recursion structural; every recursive call strictly
decreases `ts.length + s.length`, so fuel `ts.length + s.length + 1` always
suffices and the zero-fuel branch is unreachable from the wrappers below. -/
def reMatchF (anchorEnd : Bool) : Nat → List RTok → List Char → Bool
  | 0, _, _ => false
  | _ + 1, [], s => if anchorEnd then s.isEmpty else true
  | f + 1, .once a :: ts, s =>
      match s with
      | [] => false
      | c :: s' => atomMatch a c && reMatchF anchorEnd f ts s'
  | f + 1, .star a :: ts, s =>
      reMatchF anchorEnd f ts s ||
        match s with
        | [] => false
        | c :: s' => atomMatch a c && reMatchF anchorEnd f (.star a :: ts) s'
  | f + 1, .plus a :: ts, s =>
      match s with
      | [] => false
      | c :: s' => atomMatch a c && reMatchF anchorEnd f (.star a :: ts) s'
  | f + 1, .opt a :: ts, s =>
      reMatchF anchorEnd f ts s ||
        match s with
        | [] => false
        | c :: s' => atomMatch a c && reMatchF anchorEnd f ts s'

/-- Full match of a token list against a string: models
`re.match("^" ++ pat ++ "$", s)` being non-`None`. -/
def reFullMatch (ts : List RTok) (s : List Char) : Bool :=
  reMatchF true (ts.length + s.length + 1) ts s

/-- Prefix match of a token list against a string: models
`re.match(pat, s)` being non-`None`. -/
def rePrefixMatch (ts : List RTok) (s : List Char) : Bool :=
  reMatchF false (ts.length + s.length + 1) ts s

/-- The glob-to-regex text rewrite of `_resource_matches`:
`pattern.replace("*", ".*").replace("?", ".")`. -/
def globTrans : List Char → List Char
  | [] => []
  | c :: rest =>
      if c = '*' then '.' :: '*' :: globTrans rest
      else if c = '?' then '.' :: globTrans rest
      else c :: globTrans rest

/- ## JSON-like Python values

Condition operands (`PolicyCondition.value`, a `JSONField`) and evaluation
contexts are arbitrary JSON data.  Numbers keep Python's `int`/`float` split
(floats as exact rationals; floating-point rounding is irrelevant to every
claim); `bool` is numeric for comparison purposes, as in Python where
`True == 1`. -/
inductive Value where
  | null
  | bool (b : Bool)
  | int (n : Int)
  | float (q : Rat)
  | str (s : String)
  | list (vs : List Value)
  | dict (fs : List (String × Value))
deriving Repr

/-- Executable size of a value, used to provide sufficient fuel to the
recursive comparison and rendering functions below. -/
def vsize : Value → Nat
  | .null => 1
  | .bool _ => 1
  | .int _ => 1
  | .float _ => 1
  | .str _ => 1
  | .list [] => 1
  | .list (x :: xs) => 1 + vsize x + vsize (Value.list xs)
  | .dict [] => 1
  | .dict ((_, v) :: fs) => 1 + vsize v + vsize (Value.dict fs)

/-- The numeric view of a value: Python treats `bool`, `int` and `float` as
mutually comparable numbers. -/
def numOpt : Value → Option Rat
  | .bool b => some (if b then 1 else 0)
  | .int n => some (n : Rat)
  | .float q => some q
  | _ => none

/-- Python `==` on JSON-like values, with fuel making the nested recursion
structural (every recursive call strictly decreases the summed `sizeOf`, so
the wrapper's fuel is always sufficient).  Python dict equality is key-set
based; it is modelled here as ordered structural equality, which no claim
exercises. -/
def pyEqF : Nat → Value → Value → Bool
  | 0, _, _ => false
  | f + 1, a, b =>
    match numOpt a, numOpt b with
    | some x, some y => decide (x = y)
    | _, _ =>
      match a, b with
      | .null, .null => true
      | .str s, .str t => s = t
      | .list [], .list [] => true
      | .list (x :: xs), .list (y :: ys) =>
          pyEqF f x y && pyEqF f (.list xs) (.list ys)
      | .dict [], .dict [] => true
      | .dict ((k, v) :: fs), .dict ((k2, w) :: gs) =>
          k = k2 && pyEqF f v w && pyEqF f (.dict fs) (.dict gs)
      | _, _ => false

/-- Python `==`; never raises. -/
def pyEq (a b : Value) : Bool :=
  pyEqF (vsize a + vsize b + 1) a b

/-- Code-point comparison of strings, Python's `str.__le__`. -/
def charListLe : List Char → List Char → Bool
  | [], _ => true
  | _ :: _, [] => false
  | a :: xs, b :: ys => if a = b then charListLe xs ys else decide (a.toNat < b.toNat)

/-- Python `<=`.  Numbers compare numerically, strings lexicographically,
lists lexicographically via element equality then element comparison;
everything else (`None`, dicts, mixed types) raises `TypeError`. -/
def pyLeF : Nat → Value → Value → Except PyExc Bool
  | 0, _, _ => .error .typeError
  | f + 1, a, b =>
    match numOpt a, numOpt b with
    | some x, some y => .ok (decide (x ≤ y))
    | _, _ =>
      match a, b with
      | .str s, .str t => .ok (charListLe s.toList t.toList)
      | .list [], .list _ => .ok true
      | .list (_ :: _), .list [] => .ok false
      | .list (x :: xs), .list (y :: ys) =>
          if pyEqF f x y then pyLeF f (.list xs) (.list ys)
          else pyLeF f x y
      | _, _ => .error .typeError

/-- Python `<=` with sufficient fuel. -/
def pyLe (a b : Value) : Except PyExc Bool :=
  pyLeF (vsize a + vsize b + 1) a b

/-- Python `x in vs` for a list `vs`; membership via `==`, never raises. -/
def pyMem (x : Value) (vs : List Value) : Bool :=
  vs.any (fun e => pyEq x e)

/-- Leading decimal digits of a character list, and the remainder. -/
def takeDigits : List Char → List Char × List Char
  | [] => ([], [])
  | c :: rest =>
      if c.isDigit then
        let (ds, r) := takeDigits rest
        (c :: ds, r)
      else ([], c :: rest)

/-- Numeric value of a digit string. -/
def digitsVal (ds : List Char) : Nat :=
  ds.foldl (fun a c => a * 10 + (c.toNat - 48)) 0

/-- Python `float(s)` on a string: optional surrounding spaces, optional
sign, decimal digits with optional fraction and optional exponent.  `none`
models `ValueError`.  (The `inf`/`nan` spellings and digit underscores that
CPython also accepts are outside the modelled fragment; no claim uses
them.) -/
def strToRat (s : List Char) : Option Rat :=
  let t := ((s.dropWhile (· = ' ')).reverse.dropWhile (· = ' ')).reverse
  let signAndRest : Bool × List Char :=
    match t with
    | '-' :: r => (true, r)
    | '+' :: r => (false, r)
    | _ => (false, t)
  let neg := signAndRest.1
  let (ip, t1) := takeDigits signAndRest.2
  let fracAndRest : List Char × List Char :=
    match t1 with
    | '.' :: r => takeDigits r
    | _ => ([], t1)
  let fp := fracAndRest.1
  let t2 := fracAndRest.2
  if ip.isEmpty && fp.isEmpty then none
  else
    let mant : Rat := (digitsVal ip : Rat) + (digitsVal fp : Rat) / ((10 : Rat) ^ fp.length)
    let expAndRest : Bool × Int × List Char :=
      match t2 with
      | 'e' :: r | 'E' :: r =>
        let se : Int × List Char :=
          match r with
          | '-' :: r2 => (-1, r2)
          | '+' :: r2 => (1, r2)
          | _ => (1, r)
        let (eds, r3) := takeDigits se.2
        if eds.isEmpty then (false, 0, r3) else (true, se.1 * (digitsVal eds : Int), r3)
      | _ => (true, 0, t2)
    if !expAndRest.1 || !expAndRest.2.2.isEmpty then none
    else
      let v := mant * (10 : Rat) ^ expAndRest.2.1
      some (if neg then -v else v)

/-- CPython's overflow bound for `float(int)`: the conversion rounds to the
nearest double and raises `OverflowError` exactly when the rounded result
is infinite.  The largest finite double is `2^1024 - 2^971`; the midpoint
above it, `2^1024 - 2^970`, rounds (half-to-even) up to infinity, so the
conversion overflows iff the magnitude is at least `2^1024 - 2^970`. -/
def floatOverflowBound : Int := 179769313486231580793728971405303415079934132710037826936173778980444968292764750946649017977587207096330286416692887910946555547851940402630657488671505820681908902000708383676273854845817711531764475730270069855571366959622842914819860834936475292719074168444365510704342711559699508093042880177904174497792

/-- Python `float(x)` coercion: bools and floats succeed; integers succeed
unless they exceed double range, in which case `float()` raises
`OverflowError` — which `except (ValueError, TypeError)` does **not**
catch; numeric strings succeed and non-numeric strings raise `ValueError`
(string conversion never overflows — `float("1e999")` is `inf`, modelled
here as the exact rational, which no claim observes); everything else
raises `TypeError`. -/
def pyFloat : Value → Except PyExc Rat
  | .bool b => .ok (if b then 1 else 0)
  | .int n =>
      if floatOverflowBound ≤ n ∨ n ≤ -floatOverflowBound then .error .overflowError
      else .ok (n : Rat)
  | .float q => .ok q
  | .str s =>
      match strToRat s.toList with
      | some q => .ok q
      | none => .error .valueError
  | _ => .error .typeError

/-- Python `str(x)` as used by the `regex` operator (`str(left)`).  Strings
render as themselves — the only case a claim touches; numbers, `None` and
booleans render canonically; the textual form of floats, list elements and
dicts is modelled approximately (Lean's rational rendering, quoted strings,
a placeholder for dicts), which no claim depends on. -/
def pyStrF : Nat → Bool → Value → String
  | 0, _, _ => ""
  | f + 1, asRepr, v =>
    match v with
    | .null => "None"
    | .bool true => "True"
    | .bool false => "False"
    | .int n => toString n
    | .float q => toString q
    | .str s => if asRepr then "\x27" ++ s ++ "\x27" else s
    | .list [] => "[]"
    | .list (x :: xs) =>
        let hd := pyStrF f true x
        let tl := pyStrF f true (.list xs)
        let inner := (tl.drop 1).dropRight 1
        if xs.isEmpty then "[" ++ hd ++ "]" else "[" ++ hd ++ ", " ++ inner ++ "]"
    | .dict _ => "<dict>"

/-- Python `str(x)` with sufficient fuel. -/
def pyStr (v : Value) : String :=
  pyStrF (vsize v + 1) false v

/- ## `PolicyEvaluator._evaluate_operator` -/

/-- The body of the `try` block of `_evaluate_operator` (utils.py lines
173-201): dispatch on the operator string; an unknown operator falls through
to `return False`.  Exceptions appear as `Except.error`. -/
def evalOpRaw (op : String) (l r : Value) : Except PyExc Bool :=
  if op = "eq" then .ok (pyEq l r)
  else if op = "neq" then .ok (!pyEq l r)
  else if op = "gt" then do
    let a ← pyFloat l
    let b ← pyFloat r
    .ok (decide (b < a))
  else if op = "lt" then do
    let a ← pyFloat l
    let b ← pyFloat r
    .ok (decide (a < b))
  else if op = "contains" then
    match l with
    | .str s =>
        match r with
        | .str t => .ok (isSubstrL t.toList s.toList)
        | _ => .error .typeError
    | .list vs => .ok (pyMem r vs)
    | _ => .ok false
  else if op = "not_contains" then
    match l with
    | .str s =>
        match r with
        | .str t => .ok (!isSubstrL t.toList s.toList)
        | _ => .error .typeError
    | .list vs => .ok (!pyMem r vs)
    | _ => .ok true
  else if op = "in" then
    match r with
    | .list vs => .ok (pyMem l vs)
    | _ => .ok false
  else if op = "not_in" then
    match r with
    | .list vs => .ok (!pyMem l vs)
    | _ => .ok true
  else if op = "between" then
    match r with
    | .list [lo, hi] => do
        let b1 ← pyLe lo l
        if b1 then pyLe l hi else .ok false
    | _ => .ok false
  else if op = "regex" then
    match r with
    | .str pat =>
        match parseRegex pat.toList with
        | none => .error .regexError
        | some ts => .ok (rePrefixMatch ts (pyStr l).toList)
    | _ => .error .typeError
  else .ok false

/-- `PolicyEvaluator._evaluate_operator`: the `try`/`except` wrapper catches
`ValueError` and `TypeError` and turns them into `False`; any other
exception — `re.error` from an invalid `regex` pattern, or `OverflowError`
from `float()` on an out-of-range integer in `gt`/`lt` — propagates to the
caller. -/
def evaluate_operator (op : String) (l r : Value) : Except PyExc Bool :=
  match evalOpRaw op l r with
  | .error .valueError => .ok false
  | .error .typeError => .ok false
  | x => x

/- ## Conditions and nested context lookup -/

/-- A `PolicyCondition` row (models.py): a dot-path `field`, an operator
name (stored as a string; `_evaluate_operator` dispatches on it and returns
`False` for anything unknown) and a JSON operand. -/
structure Condition where
  field : String
  operator : String
  value : Value
deriving Repr

/-- Python `path.split(".")`: split on every dot, keeping empty chunks. -/
def splitOnDot : List Char → List (List Char)
  | [] => [[]]
  | '.' :: rest => [] :: splitOnDot rest
  | c :: rest =>
      match splitOnDot rest with
      | [] => [[c]]
      | k :: ks => (c :: k) :: ks

/-- Python `d.get(key)`: the value under `key`, or `None` when absent. -/
def dictGet (fs : List (String × Value)) (k : List Char) : Value :=
  match fs with
  | [] => .null
  | (k2, v) :: rest => if k2.toList = k then v else dictGet rest k

/-- The key-walking loop of `_get_nested_value`: descend through dicts; a
non-dict intermediate (including the `None` produced by a missing key)
yields `None`. -/
def walkPath : List (List Char) → Value → Value
  | [], v => v
  | k :: ks, .dict fs => walkPath ks (dictGet fs k)
  | _ :: _, _ => .null

/-- `PolicyEvaluator._get_nested_value` (utils.py lines 163-171). -/
def get_nested_value (data : Value) (path : String) : Value :=
  walkPath (splitOnDot path.toList) data

/-- The per-condition body of `_evaluate_conditions` (utils.py lines
155-160): a `None` lookup result makes the condition a non-match before the
operator is consulted; otherwise the operator decides. -/
def condCheck (ctx : Value) (c : Condition) : Except PyExc Bool :=
  match get_nested_value ctx c.field with
  | .null => .ok false
  | v => evaluate_operator c.operator v c.value

/-- `PolicyEvaluator._evaluate_conditions` (utils.py lines 152-161): true
when the condition set is empty, otherwise the conjunction over all
conditions, stopping at the first non-match; operator exceptions
propagate. -/
def evaluate_conditions (conds : List Condition) (ctx : Value) : Except PyExc Bool :=
  match conds with
  | [] => .ok true
  | c :: rest => do
      let b ← condCheck ctx c
      if b then evaluate_conditions rest ctx else .ok false

/- ## `PolicyEvaluator._resource_matches` -/

/-- The wildcard guard of the glob branch:
`any(c in pattern for c in ("*", "?", "["))`. -/
def isGlobChar (c : Char) : Bool :=
  c = '*' || c = '?' || c = '['

/-- One iteration of the pattern loop in `_resource_matches` (utils.py lines
141-149): exact match, then the `":*"` prefix branch — whose prefix is
`pattern[:-2]`, i.e. the pattern minus the trailing `":*"`, so the colon is
*not* part of the prefix — then the glob-to-regex branch.  Compiling an
invalid glob raises `re.error`. -/
def patternMatchOne (pattern resource : String) : Except PyExc Bool :=
  if pattern = resource then .ok true
  else if endsWithL [':', '*'] pattern.toList &&
      startsWithL (dropLast2 pattern.toList) resource.toList then .ok true
  else if pattern.toList.any isGlobChar then
    match parseRegex (globTrans pattern.toList) with
    | none => .error .regexError
    | some ts => if reFullMatch ts resource.toList then .ok true else .ok false
  else .ok false

/-- `PolicyEvaluator._resource_matches` (utils.py lines 140-150): the first
pattern that matches wins; if no pattern matches the result is `False`. -/
def resource_matches (patterns : List String) (resource : String) : Except PyExc Bool :=
  match patterns with
  | [] => .ok false
  | p :: ps => do
      let b ← patternMatchOne p resource
      if b then .ok true else resource_matches ps resource

/- ## The `Policy` model and the resolver -/

/-- A `Policy` row (models.py lines 71-128).  The many-to-many `conditions`,
`roles` and `agents` relations become lists (`roles`/`agents` hold the
related row identifiers; an empty list is the "zero rows in the join table"
state).  Timestamps are integers (only their ordering matters). -/
structure Policy where
  name : String
  resources : List String
  effect : PolicyEffect
  conditions : List Condition
  roles : List Nat
  agents : List Nat
  priority : Int
  valid_from : Option Int
  valid_until : Option Int
  max_calls : Option Int
  calls_made : Int
  is_active : Bool
deriving Repr

/-- `Policy.increment_calls` (models.py lines 133-136). -/
def Policy.increment_calls (p : Policy) : Policy :=
  { p with calls_made := p.calls_made + 1 }

/-- `Policy.is_valid_now` (models.py lines 138-150), with the current time
as a parameter.  Each guard mirrors a Python `if cond: return False` line;
note the truthiness tests: a `None` bound is skipped, and `max_calls`
equal to `0` is falsy in Python, so a zero quota disables the quota check
entirely. -/
def Policy.is_valid_now (p : Policy) (now : Int) : Bool :=
  if p.valid_from.elim false (fun t => decide (now < t)) then false
  else if p.valid_until.elim false (fun t => decide (t < now)) then false
  else if p.max_calls.elim false (fun m => !(m == 0) && decide (m ≤ p.calls_made)) then false
  else true

/-- The evaluating agent: its id and the ids of its roles. -/
structure Agent where
  id : Nat
  roles : List Nat
deriving Repr

/-- The candidate filter of `_get_applicable_policies` (utils.py lines
44-65): the union of the `targeted` queryset (policies naming the agent or
one of its roles) and the `global_policies` queryset (active policies with
*zero rows* in both join tables — the `exclude(agents__isnull=False)`
idiom, not the broken null-foreign-key test the docstring describes as the
prior bug). -/
def isCandidate (agent : Agent) (p : Policy) : Bool :=
  p.is_active &&
    (p.agents.contains agent.id ||
     p.roles.any (fun r => agent.roles.contains r) ||
     (p.agents.isEmpty && p.roles.isEmpty))

/-- Stable insertion of a policy into a list sorted by descending
priority. -/
def insertDescPr (p : Policy) : List Policy → List Policy
  | [] => [p]
  | q :: qs => if q.priority ≤ p.priority then p :: q :: qs else q :: insertDescPr p qs

/-- `order_by("-priority")`: descending priority.  SQL leaves the order of
equal priorities unspecified; the model uses a stable sort, and no claim
depends on tie order. -/
def sortByPriorityDesc : List Policy → List Policy
  | [] => []
  | p :: ps => insertDescPr p (sortByPriorityDesc ps)

/-- `PolicyEvaluator._get_applicable_policies` (utils.py lines 20-67) over
an in-memory policy store: candidate filter, descending-priority order,
then the `is_valid_now` post-filter. -/
def get_applicable_policies (agent : Agent) (store : List Policy) (now : Int) : List Policy :=
  (sortByPriorityDesc (store.filter (isCandidate agent))).filter (fun p => p.is_valid_now now)

/- ## `PolicyEvaluator.evaluate` -/

/-- Python truthiness, for the `context = context or {}` default. -/
def pyTruthy : Value → Bool
  | .null => false
  | .bool b => b
  | .int n => !(n == 0)
  | .float q => !(q == 0)
  | .str s => !(s == "")
  | .list vs => !vs.isEmpty
  | .dict fs => !fs.isEmpty

/-- `context = context or {}`: a falsy context is replaced by the empty
dict. -/
def normCtx (context : Value) : Value :=
  if pyTruthy context then context else Value.dict []

/-- The reason string an applying policy installs:
`f"Policy '{policy.name}' applied with effect {policy.effect}"`. -/
def applyReason (p : Policy) : String :=
  "Policy \x27" ++ p.name ++ "\x27 applied with effect " ++ p.effect.render

/-- A `PolicyAuditLog` row as `_log_decision` creates it (utils.py lines
222-231): the matched policy is recorded by its index into the resolved
list (`none` models the nullable foreign key), the context dict is stored
in `request_data`, and `execution_time_ms` is the integer the code
computed. -/
structure AuditEntry where
  agentId : Nat
  policyIdx : Option Nat
  resource : String
  action : String
  request_data : Value
  decision : PolicyEffect
  reason : String
  execution_time_ms : Nat
deriving Repr

/-- The policy loop of `evaluate` (utils.py lines 102-115), over
index-tagged policies, carrying the running
(decision, applying policy, reason) triple: a policy that fails the
resource or condition test is skipped; an applying policy overwrites the
triple; an applying DENY stops the loop. -/
def evalLoop (resource : String) (ctx : Value) :
    List (Nat × Policy) → PolicyEffect × Option Nat × String →
    Except PyExc (PolicyEffect × Option Nat × String)
  | [], st => .ok st
  | (i, p) :: rest, st => do
      let rm ← resource_matches p.resources resource
      if !rm then evalLoop resource ctx rest st
      else do
        let cm ← evaluate_conditions p.conditions ctx
        if !cm then evalLoop resource ctx rest st
        else
          let st' := (p.effect, some i, applyReason p)
          if p.effect == PolicyEffect.deny then .ok st'
          else evalLoop resource ctx rest st'

/-- `p :: ps` with the policy at the given index replaced by its
`increment_calls` successor (`applying_policy.increment_calls()`). -/
def bumpCalls : List Policy → Nat → List Policy
  | [], _ => []
  | p :: ps, 0 => p.increment_calls :: ps
  | p :: ps, n + 1 => p :: bumpCalls ps n

/-- The value stored in `execution_time_ms` (utils.py lines 117-119):
`int((timezone.now() - start_time).microseconds / 1000)`.  A `timedelta`'s
`.microseconds` attribute is the sub-second *component* of the elapsed
time, `total_µs % 1_000_000`; `int(x / 1000)` then truncates, which for
this range coincides with natural division. -/
def elapsedMsStored (elapsedMicros : Nat) : Nat :=
  elapsedMicros % 1000000 / 1000

/-- Everything `evaluate` produces: the returned triple, the audit row it
appended, the audit log after the call, and the policy list after the
quota increment. -/
structure EvalOutcome where
  decision : PolicyEffect
  matchedIdx : Option Nat
  reason : String
  entry : AuditEntry
  log : List AuditEntry
  policies : List Policy
deriving Repr

/-- `PolicyEvaluator.evaluate` (utils.py lines 69-134) over the resolved
policy list: default the context, run the loop from the fail-closed
default `(DENY, None, "No applicable policy found")`, write one audit
entry, then increment the applying policy's quota when the final decision
is ALLOW or DENY.  An exception escaping the loop (only `re.error` can)
propagates before any entry is written. -/
def evaluate (agent : Agent) (policies : List Policy) (auditLog : List AuditEntry)
    (resource action : String) (context : Value) (elapsedMicros : Nat) :
    Except PyExc EvalOutcome :=
  match evalLoop resource (normCtx context) policies.enum
      (PolicyEffect.deny, none, "No applicable policy found") with
  | .error e => .error e
  | .ok (decision, matchedIdx, reason) =>
      let entry : AuditEntry :=
        { agentId := agent.id
          policyIdx := matchedIdx
          resource := resource
          action := action
          request_data := normCtx context
          decision := decision
          reason := reason
          execution_time_ms := elapsedMsStored elapsedMicros }
      let policies' :=
        match matchedIdx with
        | some i =>
            if decision == PolicyEffect.allow || decision == PolicyEffect.deny then
              bumpCalls policies i
            else policies
        | none => policies
      .ok { decision := decision, matchedIdx := matchedIdx, reason := reason,
            entry := entry, log := auditLog ++ [entry], policies := policies' }

/-- The returned triple of `evaluate`, the part claim C1 speaks about. -/
def evaluateTriple (agent : Agent) (policies : List Policy)
    (resource action : String) (context : Value) (elapsedMicros : Nat) :
    Except PyExc (PolicyEffect × Option Nat × String) :=
  (evaluate agent policies [] resource action context elapsedMicros).map
    (fun o => (o.decision, o.matchedIdx, o.reason))

/- ## Claim-worded reference definitions

The following definitions follow the words of individual claims (not the
source); the theorems below compare them with the definitions above. -/

/-- "Resource patterns match the resource and conditions all hold", the
applicability test as claim C1 words it. -/
def policyApplies (p : Policy) (resource : String) (ctx : Value) : Except PyExc Bool := do
  let rm ← resource_matches p.resources resource
  if rm then evaluate_conditions p.conditions ctx else .ok false

/-- The iteration as claim C1 words it: start from DENY with the given
initial reason, let every applying policy overwrite the running triple,
stop immediately on an applying DENY, return the final triple.  The initial
reason is a parameter so that both the claim's literal wording (lowercase
"no applicable policy found") and the corrected wording can be
instantiated. -/
def claimLoop (resource : String) (ctx : Value) :
    List (Nat × Policy) → PolicyEffect × Option Nat × String →
    Except PyExc (PolicyEffect × Option Nat × String)
  | [], st => .ok st
  | (i, p) :: rest, st => do
      let applies ← policyApplies p resource ctx
      if applies then
        let st' := (p.effect, some i, applyReason p)
        if p.effect == PolicyEffect.deny then .ok st'
        else claimLoop resource ctx rest st'
      else claimLoop resource ctx rest st

/-- Claim C1's description of `evaluate`'s returned triple, parameterized
by the claimed initial reason. -/
def claimEvaluate (policies : List Policy) (resource : String) (ctx : Value)
    (initReason : String) : Except PyExc (PolicyEffect × Option Nat × String) :=
  claimLoop resource (normCtx ctx) policies.enum (PolicyEffect.deny, none, initReason)

/-- "Currently valid" exactly as claim C3 (and spec §3) words it:
`isActive` AND (`validFrom` unset or now ≥ validFrom) AND (`validUntil`
unset or now ≤ validUntil) AND (`maxCalls` unset or `callsMade <
maxCalls`). -/
def claimCurrentlyValid (p : Policy) (now : Int) : Bool :=
  p.is_active &&
    (p.valid_from.elim true (fun t => decide (t ≤ now))) &&
    (p.valid_until.elim true (fun t => decide (now ≤ t))) &&
    (p.max_calls.elim true (fun m => decide (p.calls_made < m)))

/-- The prefix-wildcard test as claim C4 words it: for a pattern ending in
`":*"`, true exactly when the resource starts with the pattern minus the
trailing `"*"` — a prefix that still includes the colon. -/
def claimPrefixMatch (pattern resource : String) : Bool :=
  endsWithL [':', '*'] pattern.toList &&
    startsWithL (pattern.toList.take (pattern.toList.length - 1)) resource.toList

/-- Characters with no special meaning in any branch of the matcher: not a
glob wildcard (`*`, `?`, `[`) and not a metacharacter of the modelled regex
fragment (`.`, the quantifiers); all are regex-literal in Python's `re` as
well.  The repository's resource names (`tool:crm`, `agent:execute`, ...)
consist of such characters. -/
def cleanChar (c : Char) : Bool :=
  c.isAlphanum || c = ':' || c = '_' || c = '-' || c = '/'

/- ## Concrete sample data for the closed theorems below -/

/-- A sample agent: id 1, one role. -/
def agent1 : Agent := { id := 1, roles := [7] }

/-- A global, unconditioned, always-valid ALLOW policy at priority 10. -/
def pAllow10 : Policy :=
  { name := "allow10", resources := [("tool:crm")], effect := .allow, conditions := [],
    roles := [], agents := [], priority := 10, valid_from := none, valid_until := none,
    max_calls := none, calls_made := 0, is_active := true }

/-- Like `pAllow10` but DENY at priority 5. -/
def pDeny5 : Policy :=
  { pAllow10 with name := "deny5", effect := .deny, priority := 5 }

/-- Like `pAllow10` but DENY at priority 10. -/
def pDeny10 : Policy :=
  { pAllow10 with name := "deny10", effect := .deny, priority := 10 }

/-- Like `pAllow10` but ALLOW at priority 5. -/
def pAllow5 : Policy :=
  { pAllow10 with name := "allow5", priority := 5 }

/-- An active global policy whose quota is *set* to `maxCalls = 0` with
`callsMade = 0`. -/
def pZeroQuota : Policy :=
  { pAllow10 with name := "zeroquota", max_calls := some 0 }

/-- A policy carrying one condition whose `regex` operand is the invalid
pattern `"["`. -/
def pBadRegex : Policy :=
  { pAllow10 with
    name := "badregex"
    conditions := [{ field := "x", operator := "regex", value := .str "[" }] }

/-- A policy scoped to agent id 1 only. -/
def pTargeted : Policy :=
  { pAllow10 with name := "targeted", agents := [1] }

end PolicyEngine

namespace PolicyEngine

/- ## Helper lemmas -/

/-- `claimLoop` and `evalLoop` compute the same thing: the claim's
description of the loop body agrees with the code's loop body. -/
theorem claimLoop_eq_evalLoop (resource : String) (ctx : Value) :
    ∀ (l : List (Nat × Policy)) (st : PolicyEffect × Option Nat × String),
      claimLoop resource ctx l st = evalLoop resource ctx l st := by
  intro l
  induction l with
  | nil => intro st; rfl
  | cons hd tl ih =>
      intro st
      obtain ⟨i, p⟩ := hd
      simp only [claimLoop, evalLoop, policyApplies, bind, Except.bind]
      cases hrm : resource_matches p.resources resource with
      | error e => rfl
      | ok rm =>
          cases rm with
          | false => simpa using ih st
          | true =>
              cases hcm : evaluate_conditions p.conditions ctx with
              | error e => rfl
              | ok cm =>
                  cases cm with
                  | false => simpa using ih st
                  | true =>
                      simp only [Bool.not_true, if_neg, ite_false, if_true, ite_true]
                      by_cases hd : p.effect == PolicyEffect.deny <;> simp [hd, ih]

/- ## Claim C1 -/

/-- C1, counterexample.  The claim states the running triple starts from
reason "no applicable policy found"; the code's default reason is
"No applicable policy found" (capital N), so on an empty resolved list the
returned triple differs from the claimed one. -/
theorem C1_counterexample :
    evaluateTriple agent1 [] ("tool:crm") ("task") Value.null 0 =
      .ok (PolicyEffect.deny, none, ("No applicable policy found")) ∧
    claimEvaluate [] ("tool:crm") Value.null ("no applicable policy found") =
      .ok (PolicyEffect.deny, none, ("no applicable policy found")) ∧
    ("No applicable policy found" : String) ≠ ("no applicable policy found") :=
  ⟨rfl, rfl, by decide⟩

/-- C1, amended: for every agent, resolved policy list, resource, action
and context, the triple `evaluate` returns is exactly the claimed
iteration — start from `DENY` with reason "No applicable policy found"
(capital N, the only change the counterexample forces), let each applying
policy overwrite the running triple, stop immediately on an applying DENY,
return the final triple. -/
theorem C1_theorem (agent : Agent) (policies : List Policy)
    (resource action : String) (context : Value) (elapsedMicros : Nat) :
    evaluateTriple agent policies resource action context elapsedMicros =
      claimEvaluate policies resource context ("No applicable policy found") := by
  unfold evaluateTriple claimEvaluate evaluate
  rw [claimLoop_eq_evalLoop]
  cases h : evalLoop resource (normCtx context) policies.enum
      (PolicyEffect.deny, none, ("No applicable policy found")) with
  | error e => simp [bind, Except.bind, h, Except.map]
  | ok t =>
      obtain ⟨d, mi, r⟩ := t
      simp [bind, Except.bind, h, Except.map]

/- ## Claim C2 -/

/-- C2, counterexample.  Two global unconditioned policies both matching
`"tool:crm"`: ALLOW at priority 10 and DENY at priority 5.  The claim says
the result is ALLOW; the code continues iterating after the ALLOW match,
reaches the lower-priority DENY, and returns DENY. -/
theorem C2_counterexample :
    (evaluateTriple agent1 (get_applicable_policies agent1 [pAllow10, pDeny5] 0)
        ("tool:crm") ("task") Value.null 0).map (fun t => t.1) =
      .ok PolicyEffect.deny ∧
    PolicyEffect.deny ≠ PolicyEffect.allow :=
  ⟨rfl, by decide⟩

/-- C2, amended: in both priority arrangements the decision is DENY — a
matching DENY policy overrides a higher-priority matching ALLOW because the
loop keeps iterating after non-DENY matches and stops only on DENY. -/
theorem C2_theorem :
    (evaluateTriple agent1 (get_applicable_policies agent1 [pAllow10, pDeny5] 0)
        ("tool:crm") ("task") Value.null 0).map (fun t => t.1) =
      .ok PolicyEffect.deny ∧
    (evaluateTriple agent1 (get_applicable_policies agent1 [pDeny10, pAllow5] 0)
        ("tool:crm") ("task") Value.null 0).map (fun t => t.1) =
      .ok PolicyEffect.deny :=
  ⟨rfl, rfl⟩

/- ## Claim C3 -/

/-- Insertion keeps exactly the old elements plus the new one. -/
theorem mem_insertDescPr {q p : Policy} :
    ∀ {l : List Policy}, q ∈ insertDescPr p l ↔ q = p ∨ q ∈ l := by
  intro l
  induction l with
  | nil => simp [insertDescPr]
  | cons x xs ih =>
      simp only [insertDescPr]
      split
      · simp [List.mem_cons]
      · simp only [List.mem_cons, ih]
        tauto

/-- Sorting by priority preserves membership. -/
theorem mem_sortByPriorityDesc {q : Policy} :
    ∀ {l : List Policy}, q ∈ sortByPriorityDesc l ↔ q ∈ l := by
  intro l
  induction l with
  | nil => simp [sortByPriorityDesc]
  | cons x xs ih => simp [sortByPriorityDesc, mem_insertDescPr, ih]

/-- C3, counterexample.  A policy with `maxCalls` *set* to 0 and
`callsMade = 0` satisfies `callsMade >= maxCalls`, yet resolution keeps it:
Python's `if self.max_calls and ...` treats the set value 0 as falsy and
skips the quota check, so the claimed invariant (which quantifies over
"any set value of maxCalls, including 0") fails on the resolved list. -/
theorem C3_counterexample :
    get_applicable_policies agent1 [pZeroQuota] 0 = [pZeroQuota] ∧
    claimCurrentlyValid pZeroQuota 0 = false ∧
    pZeroQuota.max_calls = some 0 ∧
    pZeroQuota.calls_made = 0 :=
  ⟨rfl, rfl, rfl, rfl⟩

/-- C3, amended: every policy in the resolved list is active, inside its
validity window, and satisfies the quota bound *except* when `maxCalls` is
set to 0 — a zero quota is falsy in Python and disables the check, so the
quota clause is "`maxCalls` unset, or equal to 0, or
`callsMade < maxCalls`". -/
theorem C3_theorem (agent : Agent) (store : List Policy) (now : Int) (p : Policy)
    (h : p ∈ get_applicable_policies agent store now) :
    p.is_active = true ∧
    (∀ t, p.valid_from = some t → t ≤ now) ∧
    (∀ t, p.valid_until = some t → now ≤ t) ∧
    (∀ m, p.max_calls = some m → m = 0 ∨ p.calls_made < m) := by
  unfold get_applicable_policies at h
  rw [List.mem_filter] at h
  obtain ⟨hmem, hvalid⟩ := h
  rw [mem_sortByPriorityDesc, List.mem_filter] at hmem
  have hact : p.is_active = true := by
    have hcand := hmem.2
    unfold isCandidate at hcand
    rw [Bool.and_eq_true] at hcand
    exact hcand.1
  unfold Policy.is_valid_now at hvalid
  split_ifs at hvalid with h1 h2 h3
  refine ⟨hact, ?_, ?_, ?_⟩
  · intro t ht
    rw [ht] at h1
    simp only [Option.elim, decide_eq_true_eq] at h1
    omega
  · intro t ht
    rw [ht] at h2
    simp only [Option.elim, decide_eq_true_eq] at h2
    omega
  · intro m hm
    rw [hm] at h3
    simp only [Option.elim, Bool.and_eq_true, Bool.not_eq_true', beq_eq_false_iff_ne,
      ne_eq, decide_eq_true_eq, not_and, not_le] at h3
    by_cases hz : m = 0
    · exact Or.inl hz
    · exact Or.inr (h3 hz)

/-- C3, witness: the amended invariant instantiated on a concrete resolved
list containing one always-valid policy. -/
theorem C3_witness :
    pAllow10.is_active = true ∧
    (∀ t, pAllow10.valid_from = some t → t ≤ 0) ∧
    (∀ t, pAllow10.valid_until = some t → (0 : Int) ≤ t) ∧
    (∀ m, pAllow10.max_calls = some m → m = 0 ∨ pAllow10.calls_made < m) :=
  C3_theorem agent1 [pAllow10] 0 pAllow10 (List.mem_singleton_self pAllow10)

/- ## Claim C5 -/

/-- C5: an active policy with zero rows in both scoping relations is a
candidate for every subject, and a policy with any non-empty scoping set is
a candidate only if the subject is named in `scopedAgents` or shares a role
with `scopedRoles`. -/
theorem C5_theorem :
    (∀ (agent : Agent) (store : List Policy) (p : Policy),
        p ∈ store → p.is_active = true → p.agents = [] → p.roles = [] →
        p ∈ store.filter (isCandidate agent)) ∧
    (∀ (agent : Agent) (store : List Policy) (p : Policy),
        p ∈ store.filter (isCandidate agent) →
        (p.agents ≠ [] ∨ p.roles ≠ []) →
        agent.id ∈ p.agents ∨ ∃ r ∈ agent.roles, r ∈ p.roles) := by
  constructor
  · intro agent store p hmem hact hag hrl
    rw [List.mem_filter]
    refine ⟨hmem, ?_⟩
    unfold isCandidate
    simp [hact, hag, hrl]
  · intro agent store p hmem hne
    rw [List.mem_filter] at hmem
    have hcand := hmem.2
    unfold isCandidate at hcand
    simp only [Bool.and_eq_true, Bool.or_eq_true, List.any_eq_true,
      decide_eq_true_eq, List.isEmpty_iff] at hcand
    obtain ⟨-, hor⟩ := hcand
    rcases hor with (hagents | hroles) | hglobal
    · exact Or.inl (by simpa using hagents)
    · obtain ⟨r, hr1, hr2⟩ := hroles
      exact Or.inr ⟨r, by simpa using hr2, hr1⟩
    · rcases hne with hne | hne
      · exact absurd hglobal.1 hne
      · exact absurd hglobal.2 hne

/-- C5, witness: the global policy is a candidate for a concrete agent it
never names, and a targeted policy's candidacy for agent 1 yields the
membership disjunction. -/
theorem C5_witness :
    pAllow10 ∈ ([pAllow10] : List Policy).filter (isCandidate agent1) ∧
    (agent1.id ∈ pTargeted.agents ∨ ∃ r ∈ agent1.roles, r ∈ pTargeted.roles) :=
  ⟨C5_theorem.1 agent1 [pAllow10] pAllow10 (List.mem_singleton_self pAllow10) rfl rfl rfl,
   C5_theorem.2 agent1 [pTargeted] pTargeted
     (List.mem_singleton_self pTargeted) (Or.inl (by decide))⟩

/- ## Claim C4 -/

/-- A list is a prefix of itself followed by anything. -/
theorem startsWithL_append_self : ∀ (l t : List Char), startsWithL l (l ++ t) = true := by
  intro l t
  induction l with
  | nil => rfl
  | cons c cs ih => simp [startsWithL, ih]

/-- If `a ++ b` is a prefix of `r`, so is `a`. -/
theorem startsWithL_append_left : ∀ (a b r : List Char),
    startsWithL (a ++ b) r = true → startsWithL a r = true := by
  intro a
  induction a with
  | nil => intro b r _; rfl
  | cons c a' ih =>
      intro b r h
      cases r with
      | nil => simp [startsWithL] at h
      | cons d r' =>
          simp only [List.cons_append, startsWithL, Bool.and_eq_true] at h ⊢
          exact ⟨h.1, ih b r' h.2⟩

/-- A list ends with its own suffix. -/
theorem endsWithL_append (suf l : List Char) : endsWithL suf (l ++ suf) = true := by
  unfold endsWithL
  rw [List.reverse_append]
  exact startsWithL_append_self _ _

/-- Taking back the left part of an append. -/
theorem take_length_append (l t : List Char) : (l ++ t).take l.length = l := by
  induction l with
  | nil => rfl
  | cons c cs ih => simp [ih]

/-- The Python slice `(l ++ ":*")[:-2]` recovers `l`: the trailing colon is
sliced away together with the star. -/
theorem dropLast2_append_colonStar (l : List Char) : dropLast2 (l ++ [':', '*']) = l := by
  unfold dropLast2
  rw [List.length_append]
  simp only [List.length_cons, List.length_nil, Nat.zero_add]
  rw [Nat.add_sub_cancel]
  exact take_length_append l _

/-- A clean character is none of the rewritten or special ones. -/
theorem cleanChar_spec {c : Char} (h : cleanChar c = true) :
    c ≠ '*' ∧ c ≠ '?' ∧ c ≠ '[' ∧ c ≠ '.' ∧ c ≠ '+' := by
  refine ⟨?_, ?_, ?_, ?_, ?_⟩ <;> rintro rfl <;> revert h <;> decide

/-- The glob rewrite leaves a clean prefix alone and turns the trailing
`":*"` into `":.*"`. -/
theorem globTrans_clean : ∀ (l : List Char), l.all cleanChar = true →
    globTrans (l ++ [':', '*']) = l ++ [':', '.', '*'] := by
  intro l
  induction l with
  | nil => intro _; rfl
  | cons c l' ih =>
      intro h
      simp only [List.all_cons, Bool.and_eq_true] at h
      obtain ⟨hc, hl⟩ := h
      obtain ⟨h1, h2, -, -, -⟩ := cleanChar_spec hc
      simp only [List.cons_append, globTrans, List.append_eq]
      rw [if_neg h1, if_neg h2, ih hl]

/-- Lexing a clean prefix produces one literal atom per character. -/
theorem lexAtoms_clean : ∀ (l rest : List Char) (ts : List LexTok),
    l.all cleanChar = true → lexAtoms false [] rest = some ts →
    lexAtoms false [] (l ++ rest) =
      some (l.map (fun c => LexTok.atom (RAtom.lit c)) ++ ts) := by
  intro l
  induction l with
  | nil => intro rest ts _ h; simpa using h
  | cons c l' ih =>
      intro rest ts hall hrest
      simp only [List.all_cons, Bool.and_eq_true] at hall
      obtain ⟨hc, hl⟩ := hall
      obtain ⟨h1, h2, h3, h4, h5⟩ := cleanChar_spec hc
      simp only [List.cons_append, lexAtoms, List.append_eq]
      rw [if_neg h3, ih rest ts hl hrest]
      simp only [Option.map_some', List.map_cons, List.cons_append]
      simp only [if_neg h4, if_neg h1, if_neg h5, if_neg h2]

/-- Quantifier attachment over literal atoms followed by `.` `*`. -/
theorem quantify_lits : ∀ (l : List Char),
    quantify (l.map (fun c => LexTok.atom (RAtom.lit c)) ++
        [LexTok.atom RAtom.dot, LexTok.starSym]) =
      some (l.map (fun c => RTok.once (RAtom.lit c)) ++ [RTok.star RAtom.dot]) := by
  intro l
  induction l with
  | nil => rfl
  | cons c l' ih =>
      cases l' with
      | nil => rfl
      | cons c' l'' =>
          have step :
              quantify (LexTok.atom (RAtom.lit c) :: LexTok.atom (RAtom.lit c') ::
                  (l''.map (fun x => LexTok.atom (RAtom.lit x)) ++
                    [LexTok.atom RAtom.dot, LexTok.starSym])) =
              (quantify (LexTok.atom (RAtom.lit c') ::
                  (l''.map (fun x => LexTok.atom (RAtom.lit x)) ++
                    [LexTok.atom RAtom.dot, LexTok.starSym]))).map
                (fun ts => RTok.once (RAtom.lit c) :: ts) := rfl
          simp only [List.map_cons, List.cons_append] at step ⊢
          rw [step]
          have ih' := ih
          simp only [List.map_cons, List.cons_append] at ih'
          rw [ih']
          rfl

/-- Compiling the glob form of a clean `":*"` pattern yields literal atoms
for the prefix and the colon, followed by `.*`. -/
theorem parseRegex_glob (pre : List Char) (h : pre.all cleanChar = true) :
    parseRegex (globTrans (pre ++ [':', '*'])) =
      some ((pre ++ [':']).map (fun c => RTok.once (RAtom.lit c)) ++ [RTok.star RAtom.dot]) := by
  have hbase : lexAtoms false [] [':', '.', '*'] =
      some [LexTok.atom (RAtom.lit ':'), LexTok.atom RAtom.dot, LexTok.starSym] := rfl
  have hl := lexAtoms_clean pre [':', '.', '*'] _ h hbase
  have hsplit : pre.map (fun c => LexTok.atom (RAtom.lit c)) ++
        [LexTok.atom (RAtom.lit ':'), LexTok.atom RAtom.dot, LexTok.starSym] =
      (pre ++ [':']).map (fun c => LexTok.atom (RAtom.lit c)) ++
        [LexTok.atom RAtom.dot, LexTok.starSym] := by
    simp
  rw [globTrans_clean pre h]
  simp only [parseRegex, hl, hsplit, quantify_lits]

/-- `.*` matches any remaining input (given sufficient fuel). -/
theorem reMatchF_stardot : ∀ (f : Nat) (r : List Char), r.length + 1 < f →
    reMatchF true f [RTok.star RAtom.dot] r = true := by
  intro f
  induction f with
  | zero => intro r hr; omega
  | succ f ih =>
      intro r hr
      cases r with
      | nil =>
          cases f with
          | zero => omega
          | succ f' => simp [reMatchF]
      | cons c r' =>
          have h' := ih r' (by simp at hr; omega)
          simp [reMatchF, atomMatch, h']

/-- Matching literal atoms followed by `.*` is exactly a prefix test. -/
theorem reMatchF_lits : ∀ (l : List Char) (f : Nat) (r : List Char),
    l.length + 1 + r.length < f →
    reMatchF true f (l.map (fun c => RTok.once (RAtom.lit c)) ++ [RTok.star RAtom.dot]) r =
      startsWithL l r := by
  intro l
  induction l with
  | nil =>
      intro f r hb
      simp only [List.map_nil, List.nil_append]
      rw [reMatchF_stardot f r (by simp at hb; omega)]
      rfl
  | cons c l' ih =>
      intro f r hb
      cases f with
      | zero => omega
      | succ f =>
          cases r with
          | nil => simp [reMatchF, startsWithL]
          | cons d r' =>
              simp only [List.map_cons, List.cons_append, reMatchF, startsWithL, atomMatch,
                List.append_eq]
              rw [ih f r' (by simp at hb; omega)]

/-- C4, counterexample.  The code's prefix branch tests
`requested.startswith(pattern[:-2])`: the colon is stripped along with the
star, so `"tool:*"` matches the bare resource `"tool"` — which does *not*
start with `"tool:"`, the prefix the claim describes (pattern minus only
the trailing `"*"`). -/
theorem C4_counterexample :
    resource_matches [("tool:*")] ("tool") = Except.ok true ∧
    claimPrefixMatch ("tool:*") ("tool") = false :=
  ⟨rfl, rfl⟩

/-- C4, amended: for a pattern of the form `prefix ++ ":*"` whose prefix
contains only wildcard-free characters, the matcher accepts exactly the
resources that start with the pattern minus the trailing **`":*"`** — the
colon is *not* part of the tested prefix, so `"tool:*"` matches
`"tool:crm"` and `"tool:email"` but also `"tool"` and `"toolbox"`, and
still not `"agent:execute"`; and when no pattern raises a regex error, a
policy's pattern list matches iff at least one of its patterns matches. -/
theorem C4_theorem :
    (∀ (pre : List Char) (resource : String), pre.all cleanChar = true →
        patternMatchOne (String.mk (pre ++ [':', '*'])) resource =
          Except.ok (startsWithL pre resource.toList)) ∧
    (∀ (patterns : List String) (resource : String) (b : Bool),
        resource_matches patterns resource = Except.ok b →
        (b = true ↔ ∃ p ∈ patterns, patternMatchOne p resource = Except.ok true)) := by
  constructor
  · intro pre resource h
    have hlist : (String.mk (pre ++ [':', '*'])).toList = pre ++ [':', '*'] := rfl
    unfold patternMatchOne
    rw [hlist]
    by_cases heq : String.mk (pre ++ [':', '*']) = resource
    · rw [if_pos heq]
      have hres : resource.toList = pre ++ [':', '*'] := by rw [← heq]; rfl
      rw [hres, startsWithL_append_self]
    · rw [if_neg heq]
      rw [endsWithL_append [':', '*'] pre, dropLast2_append_colonStar]
      by_cases hsw : startsWithL pre resource.toList = true
      · rw [hsw]
        simp
      · rw [Bool.not_eq_true] at hsw
        rw [hsw]
        simp only [Bool.true_and, Bool.false_eq_true, if_false]
        have hany : (pre ++ [':', '*']).any isGlobChar = true := by
          simp [List.any_append, isGlobChar]
        rw [hany]
        simp only [if_true]
        have hfull : reFullMatch
            ((pre ++ [':']).map (fun c => RTok.once (RAtom.lit c)) ++ [RTok.star RAtom.dot])
            resource.toList = false := by
          unfold reFullMatch
          rw [reMatchF_lits (pre ++ [':']) _ resource.toList (by simp)]
          cases hx : startsWithL (pre ++ [':']) resource.toList with
          | false => rfl
          | true =>
              have hcontra := startsWithL_append_left pre [':'] resource.toList hx
              rw [hsw] at hcontra
              exact (Bool.false_ne_true hcontra).elim
        simp only [parseRegex_glob pre h, hfull, Bool.false_eq_true, if_false]
  · intro patterns
    induction patterns with
    | nil =>
        intro resource b h
        simp only [resource_matches] at h
        injection h with h'
        subst h'
        simp
    | cons p ps ih =>
        intro resource b h
        simp only [resource_matches, bind, Except.bind] at h
        cases hp : patternMatchOne p resource with
        | error e => rw [hp] at h; exact Except.noConfusion h
        | ok bp =>
            rw [hp] at h
            cases bp with
            | true =>
                simp only [if_true] at h
                injection h with h'
                subst h'
                simp only [true_iff]
                exact ⟨p, List.mem_cons_self p ps, hp⟩
            | false =>
                simp only [Bool.false_eq_true, if_false] at h
                have hiff := ih resource b h
                constructor
                · intro hb
                  obtain ⟨q, hq, hq2⟩ := hiff.mp hb
                  exact ⟨q, List.mem_cons_of_mem p hq, hq2⟩
                · rintro ⟨q, hq, hq2⟩
                  rcases List.mem_cons.mp hq with rfl | hq'
                  · rw [hp] at hq2
                    injection hq2 with h''
                    exact absurd h''.symm (by simp)
                  · exact hiff.mpr ⟨q, hq', hq2⟩

/-- C4, witness: the amended statement instantiated with the clean prefix
`"tool"` and resource `"tool:crm"`, and the any-pattern part at the
singleton list `["tool:*"]`. -/
theorem C4_witness :
    patternMatchOne (String.mk (("tool").toList ++ [':', '*'])) ("tool:crm") =
      Except.ok (startsWithL ("tool").toList ("tool:crm").toList) ∧
    (true = true ↔ ∃ p ∈ [("tool:*")], patternMatchOne p ("tool:crm") = Except.ok true) :=
  ⟨C4_theorem.1 ("tool").toList ("tool:crm") (by decide),
   C4_theorem.2 [("tool:*")] ("tool:crm") true rfl⟩

/- ## Claim C6 -/

set_option maxRecDepth 8192 in
/-- The `floatOverflowBound` literal is exactly `2 ^ 1024 - 2 ^ 970`. -/
theorem floatOverflowBound_eq : floatOverflowBound = Int.ofNat (2 ^ 1024 - 2 ^ 970) := by
  decide

/-- `float()` coercion fails only with `ValueError`, `TypeError` or — for
out-of-double-range integers — `OverflowError`; never with `re.error`. -/
theorem pyFloat_error_kind {v : Value} {e : PyExc} (h : pyFloat v = Except.error e) :
    e = PyExc.valueError ∨ e = PyExc.typeError ∨ e = PyExc.overflowError := by
  cases v with
  | null =>
      simp only [pyFloat, Except.error.injEq] at h
      exact Or.inr (Or.inl h.symm)
  | bool b => simp [pyFloat] at h
  | int n =>
      simp only [pyFloat] at h
      split at h
      · simp only [Except.error.injEq] at h
        exact Or.inr (Or.inr h.symm)
      · exact absurd h (fun hc => Except.noConfusion hc)
  | float q => simp [pyFloat] at h
  | str s =>
      simp only [pyFloat] at h
      split at h
      · exact absurd h (fun hc => Except.noConfusion hc)
      · simp only [Except.error.injEq] at h
        exact Or.inl h.symm
  | list vs =>
      simp only [pyFloat, Except.error.injEq] at h
      exact Or.inr (Or.inl h.symm)
  | dict fs =>
      simp only [pyFloat, Except.error.injEq] at h
      exact Or.inr (Or.inl h.symm)

/-- Python `<=` fails only with `TypeError` (it never touches the regex
machinery). -/
theorem pyLeF_error_kind : ∀ (f : Nat) {a b : Value} {e : PyExc},
    pyLeF f a b = Except.error e → e = PyExc.typeError := by
  intro f
  induction f with
  | zero =>
      intro a b e h
      simp only [pyLeF, Except.error.injEq] at h
      exact h.symm
  | succ f ih =>
      intro a b e h
      simp only [pyLeF] at h
      split at h
      · simp at h
      · split at h
        · simp at h
        · simp at h
        · simp at h
        · split at h
          · exact ih h
          · exact ih h
        · simp only [Except.error.injEq] at h
          exact h.symm

/-- Python `<=` (with its canonical fuel) fails only with `TypeError`. -/
theorem pyLe_error_kind {a b : Value} {e : PyExc} (h : pyLe a b = Except.error e) :
    e = PyExc.typeError :=
  pyLeF_error_kind _ h

/-- C6, counterexample.  An invalid regex operand (`"["`, an unterminated
character set) makes `re.match` raise `re.error`, which the
`except (ValueError, TypeError)` clause does not catch: the exception
reaches the caller instead of being treated as a non-match. -/
theorem C6_counterexample :
    evaluate_operator ("regex") (Value.str "x") (Value.str "[") =
      Except.error PyExc.regexError :=
  rfl

set_option maxHeartbeats 4000000 in
/-- Any error of the raw operator body is a (caught) `ValueError` or
`TypeError`, or one of the two escaping exceptions: a regex-compile error
in the `regex` branch, or an integer-to-float `OverflowError` in the
`gt`/`lt` branches. -/
theorem evalOpRaw_error_shape (op : String) (l r : Value) (e : PyExc)
    (hr : evalOpRaw op l r = Except.error e) :
    e = PyExc.valueError ∨ e = PyExc.typeError ∨
    (op = "regex" ∧ e = PyExc.regexError) ∨
    ((op = "gt" ∨ op = "lt") ∧ e = PyExc.overflowError) := by
  unfold evalOpRaw at hr
  split_ifs at hr with h1 h2 h3 h4 h5 h6 h7 h8 h9 h10
  · cases ha : pyFloat l with
    | error e1 =>
        rw [ha] at hr
        simp only [bind, Except.bind, Except.error.injEq] at hr
        subst hr
        rcases pyFloat_error_kind ha with hk | hk | hk
        · exact Or.inl hk
        · exact Or.inr (Or.inl hk)
        · exact Or.inr (Or.inr (Or.inr ⟨Or.inl h3, hk⟩))
    | ok a =>
        cases hb : pyFloat r with
        | error e1 =>
            rw [ha, hb] at hr
            simp only [bind, Except.bind, Except.error.injEq] at hr
            subst hr
            rcases pyFloat_error_kind hb with hk | hk | hk
            · exact Or.inl hk
            · exact Or.inr (Or.inl hk)
            · exact Or.inr (Or.inr (Or.inr ⟨Or.inl h3, hk⟩))
        | ok b =>
            rw [ha, hb] at hr
            simp only [bind, Except.bind] at hr
            exact Except.noConfusion hr
  · cases ha : pyFloat l with
    | error e1 =>
        rw [ha] at hr
        simp only [bind, Except.bind, Except.error.injEq] at hr
        subst hr
        rcases pyFloat_error_kind ha with hk | hk | hk
        · exact Or.inl hk
        · exact Or.inr (Or.inl hk)
        · exact Or.inr (Or.inr (Or.inr ⟨Or.inr h4, hk⟩))
    | ok a =>
        cases hb : pyFloat r with
        | error e1 =>
            rw [ha, hb] at hr
            simp only [bind, Except.bind, Except.error.injEq] at hr
            subst hr
            rcases pyFloat_error_kind hb with hk | hk | hk
            · exact Or.inl hk
            · exact Or.inr (Or.inl hk)
            · exact Or.inr (Or.inr (Or.inr ⟨Or.inr h4, hk⟩))
        | ok b =>
            rw [ha, hb] at hr
            simp only [bind, Except.bind] at hr
            exact Except.noConfusion hr
  · split at hr
    · split at hr
      · exact Except.noConfusion hr
      · simp only [Except.error.injEq] at hr
        exact Or.inr (Or.inl hr.symm)
    · exact Except.noConfusion hr
    · exact Except.noConfusion hr
  · split at hr
    · split at hr
      · exact Except.noConfusion hr
      · simp only [Except.error.injEq] at hr
        exact Or.inr (Or.inl hr.symm)
    · exact Except.noConfusion hr
    · exact Except.noConfusion hr
  · split at hr
    · exact Except.noConfusion hr
    · exact Except.noConfusion hr
  · split at hr
    · exact Except.noConfusion hr
    · exact Except.noConfusion hr
  · split at hr
    · rename_i lo hi
      cases hlo : pyLe lo l with
      | error e1 =>
          have hk := pyLe_error_kind hlo
          rw [hlo] at hr
          simp only [bind, Except.bind, Except.error.injEq] at hr
          subst hr
          exact Or.inr (Or.inl hk)
      | ok b1 =>
          rw [hlo] at hr
          simp only [bind, Except.bind] at hr
          split at hr
          · exact Or.inr (Or.inl (pyLe_error_kind hr))
          · exact Except.noConfusion hr
    · exact Except.noConfusion hr
  · split at hr
    · split at hr
      · simp only [Except.error.injEq] at hr
        exact Or.inr (Or.inr (Or.inl ⟨h10, hr.symm⟩))
      · exact Except.noConfusion hr
    · simp only [Except.error.injEq] at hr
      exact Or.inr (Or.inl hr.symm)

/-- C6, amended: for every operator, left value and right operand, every
`ValueError` and `TypeError` raised during coercion or comparison
(non-numeric `gt`/`lt` operands, malformed `between` pairs, wrong-typed
`contains`/`regex` operands, ...) is caught and the condition evaluates to
non-match; but exactly two exceptions escape the
`except (ValueError, TypeError)` clause and reach the caller: `re.error`
from the `regex` operator on an invalid pattern, and `OverflowError` from
the `gt`/`lt` operators when `float()` is applied to an integer beyond
double range. -/
theorem C6_theorem (op : String) (l r : Value) (e : PyExc)
    (h : evaluate_operator op l r = Except.error e) :
    (op = "regex" ∧ e = PyExc.regexError) ∨
    ((op = "gt" ∨ op = "lt") ∧ e = PyExc.overflowError) := by
  unfold evaluate_operator at h
  cases hr : evalOpRaw op l r with
  | ok b => rw [hr] at h; cases h
  | error e' =>
      rw [hr] at h
      cases e' with
      | valueError => cases h
      | typeError => cases h
      | regexError =>
          have he : e = PyExc.regexError := by
            simp only [Except.error.injEq] at h
            exact h.symm
          subst he
          rcases evalOpRaw_error_shape op l r _ hr with hk | hk | hk | hk
          · exact PyExc.noConfusion hk
          · exact PyExc.noConfusion hk
          · exact Or.inl hk
          · exact PyExc.noConfusion hk.2
      | overflowError =>
          have he : e = PyExc.overflowError := by
            simp only [Except.error.injEq] at h
            exact h.symm
          subst he
          rcases evalOpRaw_error_shape op l r _ hr with hk | hk | hk | hk
          · exact PyExc.noConfusion hk
          · exact PyExc.noConfusion hk
          · exact PyExc.noConfusion hk.2
          · exact Or.inr hk

set_option maxRecDepth 8192 in
/-- C6, witness: the amended theorem applied at two concrete escaping
inputs — the `regex` operator with the invalid pattern `"["`, and the `gt`
operator with the out-of-double-range integer `2 ^ 1024`. -/
theorem C6_witness :
    ((("regex" : String) = "regex" ∧ PyExc.regexError = PyExc.regexError) ∨
      ((("regex" : String) = "gt" ∨ ("regex" : String) = "lt") ∧
        PyExc.regexError = PyExc.overflowError)) ∧
    ((("gt" : String) = "regex" ∧ PyExc.overflowError = PyExc.regexError) ∨
      ((("gt" : String) = "gt" ∨ ("gt" : String) = "lt") ∧
        PyExc.overflowError = PyExc.overflowError)) :=
  ⟨C6_theorem ("regex") (Value.str "x") (Value.str "[") PyExc.regexError rfl,
   C6_theorem ("gt") (Value.int 179769313486231590772930519078902473361797697894230657273430081157732675805500963132708477322407536021120113879871393357658789768814416622492847430639474124377767893424865485276302219601246094119453082952085005768838150682342462881473913110540827237163350510684586298239947245938479716304835356329624224137216) (Value.int 1) PyExc.overflowError rfl⟩

/- ## Claim C7 -/

/-- C7, counterexample.  A call whose matched-policy condition raises the
uncaught `re.error` (invalid regex operand `"["`) aborts before
`_log_decision` runs: the call completes with an exception and appends no
audit entry at all, contradicting "every call ... appends exactly one new
audit entry". -/
theorem C7_counterexample :
    evaluate agent1 [pBadRegex] [] ("tool:crm") ("task")
        (Value.dict [(("x"), Value.str "y")]) 0 =
      Except.error PyExc.regexError :=
  rfl

/-- C7, amended: every call to evaluate that completes without an exception
appends exactly one new audit entry, whose decision equals the returned
decision, whose resource, action and request-data snapshot equal the call's
inputs (the context normalized to the empty mapping when falsy, per
`context = context or {}`), and whose policy reference is the matched
policy or null. -/
theorem C7_theorem (agent : Agent) (policies : List Policy) (log : List AuditEntry)
    (resource action : String) (context : Value) (elapsedMicros : Nat) (out : EvalOutcome)
    (h : evaluate agent policies log resource action context elapsedMicros = Except.ok out) :
    out.log = log ++ [out.entry] ∧
    out.entry.decision = out.decision ∧
    out.entry.resource = resource ∧
    out.entry.action = action ∧
    out.entry.request_data = normCtx context ∧
    out.entry.policyIdx = out.matchedIdx ∧
    out.entry.agentId = agent.id := by
  unfold evaluate at h
  split at h
  · exact Except.noConfusion h
  · injection h with h'
    subst h'
    exact ⟨rfl, rfl, rfl, rfl, rfl, rfl, rfl⟩

/-- C7, witness: a concrete call (no applicable policy, a DENY outcome)
appends exactly one entry with the returned decision. -/
theorem C7_witness :
    ∃ out, evaluate agent1 [] [] ("r") ("a") Value.null 0 = Except.ok out ∧
      out.log = [] ++ [out.entry] ∧ out.entry.decision = out.decision := by
  refine ⟨_, rfl, ?_, ?_⟩
  · exact (C7_theorem agent1 [] [] ("r") ("a") Value.null 0 _ rfl).1
  · exact (C7_theorem agent1 [] [] ("r") ("a") Value.null 0 _ rfl).2.1

/- ## Claim C8 -/

/-- `bumpCalls` rewrites only the targeted index. -/
theorem bumpCalls_get? : ∀ (l : List Policy) (i j : Nat),
    (bumpCalls l i).get? j =
      if i = j then (l.get? j).map Policy.increment_calls else l.get? j := by
  intro l
  induction l with
  | nil => intro i j; simp [bumpCalls]
  | cons p ps ih =>
      intro i j
      cases i with
      | zero =>
          cases j with
          | zero => simp [bumpCalls]
          | succ j => simp [bumpCalls]
      | succ i =>
          cases j with
          | zero => simp [bumpCalls]
          | succ j => simpa [bumpCalls] using ih i j

/-- C8: after a completed call, the policy list is unchanged except that
the matched policy's `callsMade` counter has grown by exactly one — and
that happens if and only if some policy applied and the final decision is
ALLOW or DENY; on AUDIT, ESCALATE or no applying policy every counter is
untouched, and in all cases every policy other than the matched one is
untouched. -/
theorem C8_theorem (agent : Agent) (policies : List Policy) (log : List AuditEntry)
    (resource action : String) (context : Value) (elapsedMicros : Nat) (out : EvalOutcome)
    (h : evaluate agent policies log resource action context elapsedMicros = Except.ok out)
    (j : Nat) :
    out.policies.get? j =
      if out.matchedIdx = some j ∧
          (out.decision = PolicyEffect.allow ∨ out.decision = PolicyEffect.deny)
      then (policies.get? j).map Policy.increment_calls
      else policies.get? j := by
  unfold evaluate at h
  split at h
  · exact Except.noConfusion h
  · injection h with h'
    subst h'
    rename_i t d mi rsn heq
    cases mi with
    | none => simp
    | some i =>
        by_cases hd : d = PolicyEffect.allow ∨ d = PolicyEffect.deny
        · have hb : (d == PolicyEffect.allow || d == PolicyEffect.deny) = true := by
            rcases hd with h | h <;> simp [h]
          simp only [hb, if_true]
          rw [bumpCalls_get?]
          by_cases hij : i = j
          · subst hij
            simp [hd]
          · simp [hij, hd, Option.some.injEq]
        · have hb : (d == PolicyEffect.allow || d == PolicyEffect.deny) = false := by
            cases d <;> simp_all
          simp only [hb, Bool.false_eq_true, if_false]
          simp [hd]

/-- C8, witness: one matching ALLOW policy — after the call its counter is
incremented (and a second run of the same scenario starting from the
updated store would see `callsMade = 1`). -/
theorem C8_witness :
    ∃ out, evaluate agent1 [pAllow10] [] ("tool:crm") ("task") Value.null 0 = Except.ok out ∧
      out.policies.get? 0 = (([pAllow10] : List Policy).get? 0).map Policy.increment_calls := by
  refine ⟨_, rfl, ?_⟩
  have h := C8_theorem agent1 [pAllow10] [] ("tool:crm") ("task") Value.null 0 _ rfl 0
  simpa using h

/- ## Claim C9 -/

/-- C9: the persisted duration is **not** the total elapsed time in
milliseconds.  The code stores
`int((now - start).microseconds / 1000)`, and `.microseconds` is only the
sub-second component of the elapsed time; for an evaluation lasting
1,500,000 µs (1.5 s) the stored value is 500, while the total elapsed time
in whole milliseconds is 1500. -/
theorem C9_theorem :
    (evaluate agent1 [] [] ("r") ("a") Value.null 1500000).map
        (fun o => o.entry.execution_time_ms) = .ok 500 ∧
    elapsedMsStored 1500000 = 500 ∧
    1500000 / 1000 = 1500 ∧
    (500 : Nat) ≠ 1500 :=
  ⟨rfl, rfl, rfl, by decide⟩

/- ## Claim C10 -/

/-- C10: whenever the dot-path lookup of a condition's field yields `None`
— a missing key, a non-mapping intermediate, or an explicitly stored null —
the condition evaluates to non-match, whatever its operator and operand:
the `value is None` guard fires before the operator is consulted. -/
theorem C10_theorem (c : Condition) (ctx : Value)
    (h : get_nested_value ctx c.field = Value.null) :
    condCheck ctx c = .ok false := by
  unfold condCheck
  rw [h]

/-- C10, witness: an `eq`-with-null condition against a context that stores
an explicit null under the field — the lookup yields null and the condition
still does not match. -/
theorem C10_witness :
    get_nested_value (Value.dict [(("x"), Value.null)]) ("x") = Value.null ∧
    condCheck (Value.dict [(("x"), Value.null)])
        { field := "x", operator := "eq", value := Value.null } = .ok false :=
  ⟨rfl, C10_theorem _ _ rfl⟩

end PolicyEngine
